import Mathlib

/-!
# SERPmetrics Node.JS SDK (`smapi.js`)

A shallow embedding of the client object built by `exports.SMapi`: the
constructor, the eight operations, `_generateSignature` and the body of `rest`.

Conventions of the embedding:

* JavaScript values are the terms of `Val`; numbers are exact rationals.
* A synchronous exception is an `Except.error` (or `Outcome.threw`).
* The wall clock `new Date()` is an explicit argument `now`, in milliseconds
  since the Unix epoch.
* Node's `crypto` and `url` modules are external; what the client needs of them
  is collected in `Env`.
* `request(reqOptions, cb)` is recorded as `Outcome.requested reqOptions cb`.
-/

namespace Smapi

/-! ## JavaScript values -/

/-- JavaScript values that reach the client: `undefined`, numbers, strings, arrays,
object literals (association lists, first binding wins) and functions, of which
only the declared parameter count (`f.length`) is observable here. -/
inductive Val where
  | undefined
  | num (q : ℚ)
  | str (s : String)
  | arr (xs : List Val)
  | obj (props : List (String × Val))
  | fn (arity : Nat)

/-- Exceptions thrown synchronously. -/
inductive JSError where
  | TypeError
  | Error (message : String)
  deriving DecidableEq, Repr

namespace Val

/-- The test `typeof v == 'undefined'`. -/
def isUndefined : Val → Bool
  | .undefined => true
  | _ => false

/-- The test `v instanceof Array`. -/
def isArray : Val → Bool
  | .arr _ => true
  | _ => false

/-- Property read `v[name]` on a value other than `undefined`: own properties of an
object literal, `length` of strings, arrays and functions, and `undefined` for
everything else. A string is measured in code points; the client only compares a
length with 0. -/
def get (v : Val) (name : String) : Val :=
  match v with
  | .obj props => (props.lookup name).getD .undefined
  | .str s => if name = "length" then .num s.length else .undefined
  | .arr xs => if name = "length" then .num xs.length else .undefined
  | .fn arity => if name = "length" then .num arity else .undefined
  | _ => .undefined

/-- Property read `v[name]`; reading a property of `undefined` throws a `TypeError`. -/
def getE (v : Val) (name : String) : Except JSError Val :=
  match v with
  | .undefined => .error .TypeError
  | w => .ok (w.get name)

/-- The test `v === q` against a number. -/
def strictEqNum (v : Val) (q : ℚ) : Bool :=
  match v with
  | .num r => decide (r = q)
  | _ => false

/-- Assignment `v[name] = x`: throws a `TypeError` on `undefined`, rebinds the
property of an object literal, and is dropped on the other values. -/
def setProp (v : Val) (name : String) (x : Val) : Except JSError Val :=
  match v with
  | .undefined => .error .TypeError
  | .obj props => .ok (.obj ((name, x) :: props))
  | w => .ok w

end Val

/-! ## External modules -/

/-- External collaborators: `hmacSha256Base64 key message` is
`crypto.createHmac('sha256', key).update(message).digest('base64')` for a string
key, and `urlFormat` is `url.format`. -/
structure Env where
  hmacSha256Base64 : String → String → String
  urlFormat : Val → Except JSError String

/-- The chain `crypto.createHmac('sha256', key).update(message).digest('base64')`:
`createHmac` rejects a key that is not a string with a `TypeError`. -/
def createHmacDigest (env : Env) (key : Val) (message : String) : Except JSError String :=
  match key with
  | .str k => .ok (env.hmacSha256Base64 k message)
  | _ => .error .TypeError

/-! ## The client object -/

/-- The object literal returned by `exports.SMapi` (data properties only).
`milliseconds_per_request` is `none` when the quotient is not a finite number. -/
structure Client where
  VERSION : String
  apiUrl : String
  userAgent : String
  timeout : ℚ
  credentials : Val
  rate_limit : ℚ
  milliseconds_per_request : Option ℚ

/-- The quotient `60000/rate_limit` on the constructor argument: `none` stands for
the results that are not finite (`NaN` for an omitted argument, an infinity for 0). -/
def millisecondsPerRequest (rate_limit : Option ℚ) : Option ℚ :=
  match rate_limit with
  | some r => if r = 0 then none else some (60000 / r)
  | none => none

/-- The constructor `exports.SMapi(credentials, rate_limit, timeout)`; an omitted
numeric argument is `none`. -/
def SMapi (credentials : Val) (rate_limit timeout : Option ℚ) : Client :=
  { VERSION := "v1.0.0"
    apiUrl := "http://api.serpmetrics.com"
    userAgent := "SERPmetrics Node.JS Library"
    timeout := match timeout with
      | some t => t
      | none => 5000
    credentials := credentials
    rate_limit := match timeout with
      | some t => t
      | none => 30
    milliseconds_per_request := millisecondsPerRequest rate_limit }

/-- The wait handed to `_.throttle` for `rest`: `this.milliseconds_per_request`,
where `this` is the receiver of the call to `SMapi` (the object literal is still
being built and is not `this`). -/
def restThrottleWait (receiver : Val) : Val :=
  receiver.get "milliseconds_per_request"

/-- The property read `this.url` on the client: the object literal defines `apiUrl`
and no `url`. -/
def Client.url (_self : Client) : Val := .undefined

/-! ## Signing -/

/-- The result of `_generateSignature`. -/
structure SignatureToken where
  ts : Nat
  signature : String
  deriving DecidableEq, Repr

/-- The method `_generateSignature(credentials)` at clock reading `now`. -/
def _generateSignature (env : Env) (self : Client) (now : Nat) (credentials : Val) :
    Except JSError SignatureToken := do
  let ts := now / 1000
  let credentials :=
    if credentials.isUndefined || (credentials.get "length").strictEqNum 0 then
      self.credentials
    else credentials
  let secret ← credentials.getE "secret"
  let signature ← createHmacDigest env secret (toString ts)
  pure { ts := ts, signature := signature }

/-! ## The dispatcher -/

/-- The options object an operation hands to `rest`; an omitted `method` or `path`
is `none`, omitted `params` are `undefined`. -/
structure RequestSpec where
  method : Option String
  path : Option String
  params : Val

/-- The `options` object after the merge over `defaults`. -/
structure Options where
  method : String
  url : String
  path : String
  params : Val

/-- The merge at the top of `rest`: every property of `options` overwrites the one of
`defaults = {method: 'POST', url: this.apiUrl, path: '/'}`. -/
def normalize (self : Client) (options : RequestSpec) : Options :=
  { method := match options.method with
      | some m => m
      | none => "POST"
    url := self.apiUrl
    path := match options.path with
      | some p => p
      | none => "/"
    params := options.params }

/-- The object `reqData`. -/
structure Payload where
  params : Val
  key : Val
  auth : String
  ts : Nat

/-- The object `reqData` as a value. -/
def Payload.toVal (p : Payload) : Val :=
  .obj [("params", p.params), ("key", p.key), ("auth", .str p.auth), ("ts", .num p.ts)]

/-- The object `reqOptions` handed to `request`; `headers` is empty and `json` is
`none` where the branch does not set them. -/
structure ReqOptions where
  url : String
  method : String
  headers : List (String × String)
  json : Option Payload
  timeout : ℚ

/-- What a call does: it throws, or it calls `request(reqOptions, cb)`. -/
inductive Outcome where
  | threw (e : JSError)
  | requested (reqOptions : ReqOptions) (cb : Val)

/-- The function wrapped by `_.throttle` as `rest`, `function (options, credentials, cb)`,
on an invocation at clock reading `now`. -/
def rest (env : Env) (self : Client) (now : Nat) (options : RequestSpec)
    (credentials cb : Val) : Outcome :=
  let options := normalize self options
  let params := if !options.params.isUndefined then options.params else .obj []
  let credentials :=
    if credentials.isUndefined || (credentials.get "length").strictEqNum 0 then
      self.credentials
    else credentials
  match _generateSignature env self now credentials with
  | .error e => .threw e
  | .ok auth =>
    match credentials.getE "key" with
    | .error e => .threw e
    | .ok key =>
      let reqData : Payload :=
        { params := params, key := key, auth := auth.signature, ts := auth.ts }
      let curUrl := self.url
      if options.method = "GET" then
        match curUrl.setProp "query" reqData.toVal with
        | .error e => .threw e
        | .ok curUrl =>
          match env.urlFormat curUrl with
          | .error e => .threw e
          | .ok u =>
            .requested
              { url := u, method := "GET", headers := [], json := none
                timeout := self.timeout } cb
      else
        match env.urlFormat curUrl with
        | .error e => .threw e
        | .ok u =>
          .requested
            { url := u, method := "POST"
              headers := [("User-Agent", self.userAgent ++ " " ++ self.VERSION)]
              json := some reqData
              timeout := self.timeout } cb

/-! ## The operations

Each operation builds an `options` literal and returns `this.rest(options, cb)`:
two arguments, for the parameters `(options, credentials, cb)` of `rest`, so the
third argument is `undefined`. The property `this.rest` of the receiver is the
argument `rest`; on the client built by `SMapi` it is `Smapi.rest env self now`. -/

/-- The method `add(keyword, engines, cb)`. -/
def add {α : Type} (rest : RequestSpec → Val → Val → α) (keyword engines cb : Val) : α :=
  let engines := if !engines.isArray then Val.arr [engines] else engines
  let options : RequestSpec :=
    { method := none
      path := some "/keywords/add"
      params := .obj [("keyword", keyword), ("engines", engines)] }
  rest options cb .undefined

/-- The method `remove(keywordId, cb)`. -/
def remove {α : Type} (rest : RequestSpec → Val → Val → α) (keywordId cb : Val) : α :=
  let options : RequestSpec :=
    { method := none
      path := some "/keywords/delete"
      params := .obj [("keyword_id", keywordId)] }
  rest options cb .undefined

/-- The method `priorityAdd(keyword, engines, cb)`. -/
def priorityAdd {α : Type} (rest : RequestSpec → Val → Val → α) (keyword engines cb : Val) :
    α :=
  let engines := if !engines.isArray then Val.arr [engines] else engines
  let options : RequestSpec :=
    { method := none
      path := some "/priority/add"
      params := .obj [("keyword", keyword), ("engines", engines)] }
  rest options cb .undefined

/-- The method `priorityStatus(priorityId, cb)`. -/
def priorityStatus {α : Type} (rest : RequestSpec → Val → Val → α) (priorityId cb : Val) :
    α :=
  let options : RequestSpec :=
    { method := none
      path := some "/priority/status"
      params := .obj [("priority_id", priorityId)] }
  rest options cb .undefined

/-- The method `check(keywordId, engine, limit, cb)`. -/
def check {α : Type} (rest : RequestSpec → Val → Val → α)
    (keywordId engine limit cb : Val) : α :=
  let limit := if !limit.isUndefined then limit else Val.num 10
  let options : RequestSpec :=
    { method := some "GET"
      path := some "/keywords/check"
      params := .obj [("keyword_id", keywordId), ("engine", engine), ("limit", limit)] }
  rest options cb .undefined

/-- The method `serp(checkId, domain, cb)`. -/
def serp {α : Type} (rest : RequestSpec → Val → Val → α) (checkId domain cb : Val) : α :=
  let options : RequestSpec :=
    { method := none
      path := some "/keywords/serp"
      params := .obj [("check_id", checkId), ("domain", domain)] }
  rest options cb .undefined

/-- The method `credit(cb)`. -/
def credit {α : Type} (rest : RequestSpec → Val → Val → α) (cb : Val) : α :=
  let options : RequestSpec :=
    { method := none
      path := some "/users/credit"
      params := .undefined }
  rest options cb .undefined

/-- The method `flux(engineCode, _type, cb)`. -/
def flux {α : Type} (rest : RequestSpec → Val → Val → α) (engineCode _type cb : Val) : α :=
  let _type := if !_type.isUndefined then _type else Val.str "daily"
  let options : RequestSpec :=
    { method := none
      path := some "/flux/trend"
      params := .obj [("engine_code", engineCode), ("type", _type)] }
  rest options cb .undefined

/-- The arguments of a call `rest(options, credentials, cb)` as a value: the receiver
`rest` that records what an operation hands over. -/
def recordCall (options : RequestSpec) (credentials cb : Val) : RequestSpec × Val × Val :=
  (options, credentials, cb)

/-! ## Sample data -/

/-- A credentials dict `{key: key, secret: secret}`. -/
def credentialsDict (key secret : String) : Val :=
  .obj [("key", .str key), ("secret", .str secret)]

/-- A credentials dict `{key: key}` with no `secret` property. -/
def credentialsNoSecret (key : String) : Val :=
  .obj [("key", .str key)]

/-- A stand-in environment for concrete evaluation: the digest is the tagged pair of
its inputs and `url.format` returns the empty string on `undefined`. -/
def sampleEnv : Env :=
  { hmacSha256Base64 := fun k m => "hmac(" ++ k ++ "," ++ m ++ ")"
    urlFormat := fun v =>
      match v with
      | .undefined => .ok ""
      | _ => .ok "http://api.serpmetrics.com" }

/-- A stand-in environment whose `url.format` throws a `TypeError` on `undefined`, as
the Node releases that validate the argument do. -/
def strictEnv : Env :=
  { hmacSha256Base64 := fun k m => "hmac(" ++ k ++ "," ++ m ++ ")"
    urlFormat := fun v =>
      match v with
      | .undefined => .error .TypeError
      | _ => .ok "http://api.serpmetrics.com" }

/-- A client built with credentials `{key: 'k', secret: 'abc'}` and no other argument. -/
def sampleClient : Client :=
  SMapi (credentialsDict "k" "abc") none none

/-! ## Auxiliary facts -/

/-- A function value with at least one declared parameter does not have length 0. -/
theorem fn_succ_length_ne_zero (n : Nat) :
    ((Val.fn (n + 1)).get "length").strictEqNum 0 = false := by
  have h : ((n : ℚ) + 1) ≠ 0 := by positivity
  simp [Val.get, Val.strictEqNum, h]

/-- Signing with a function of at least one parameter in the credentials position
throws: a function has no `secret` property. -/
theorem generateSignature_fn_succ (env : Env) (self : Client) (now n : Nat) :
    _generateSignature env self now (.fn (n + 1)) = .error .TypeError := by
  have h := fn_succ_length_ne_zero n
  simp only [_generateSignature, Val.isUndefined, h]
  rfl

/-- An invocation of `rest` without a third argument never hands a defined callback
to `request`. -/
theorem rest_without_callback (env : Env) (self : Client) (now : Nat) (options : RequestSpec)
    (credentials : Val) (req : ReqOptions) (f : Val)
    (h : rest env self now options credentials .undefined = .requested req f) :
    f = .undefined := by
  unfold rest at h
  simp only [] at h
  split at h
  · cases h
  · split at h
    · cases h
    · split at h
      · split at h
        · cases h
        · split at h
          · cases h
          · injection h with _ h2
            exact h2.symm
      · split at h
        · cases h
        · injection h with _ h2
          exact h2.symm

/-- Signing with a credentials dict `{key, secret}` succeeds, whatever the client. -/
theorem generateSignature_dict (env : Env) (self : Client) (now : Nat) (key secret : String) :
    _generateSignature env self now (credentialsDict key secret) =
      .ok { ts := now / 1000
            signature := env.hmacSha256Base64 secret (toString (now / 1000)) } := by
  simp [_generateSignature, credentialsDict, Val.isUndefined, Val.get, Val.strictEqNum,
    Val.getE, createHmacDigest, List.lookup]
  rfl

/-- A credentials dict `{key, secret}` is neither `undefined` nor of length 0. -/
theorem credentialsDict_kept (key secret : String) :
    ((credentialsDict key secret).isUndefined ||
      ((credentialsDict key secret).get "length").strictEqNum 0) = false := by
  simp [credentialsDict, Val.isUndefined, Val.get, Val.strictEqNum, List.lookup]

/-- The `key` property of a credentials dict `{key, secret}`. -/
theorem credentialsDict_key (key secret : String) :
    (credentialsDict key secret).getE "key" = .ok (.str key) := by
  simp [credentialsDict, Val.getE, Val.get, List.lookup]

/-- A credentials dict `{key}` is neither `undefined` nor of length 0. -/
theorem credentialsNoSecret_kept (key : String) :
    ((credentialsNoSecret key).isUndefined ||
      ((credentialsNoSecret key).get "length").strictEqNum 0) = false := by
  simp [credentialsNoSecret, Val.isUndefined, Val.get, Val.strictEqNum, List.lookup]

/-- Signing without an override is signing with the stored credentials. -/
theorem generateSignature_undefined (env : Env) (self : Client) (now : Nat) :
    _generateSignature env self now .undefined =
      _generateSignature env self now self.credentials := by
  simp only [_generateSignature, Val.isUndefined, Bool.true_or, if_true]
  split <;> rfl

/-- The `secret` property of a credentials dict `{key}` is not a string. -/
theorem credentialsNoSecret_secret (key : String) :
    ∀ s : String, (credentialsNoSecret key).get "secret" ≠ .str s := by
  intro s
  simp [credentialsNoSecret, Val.get, List.lookup]

/-- The HMAC constructor rejects every key that is not a string. -/
theorem createHmacDigest_not_str (env : Env) (x : Val) (message : String)
    (h : ∀ s : String, x ≠ .str s) :
    createHmacDigest env x message = .error .TypeError := by
  cases x with
  | str k => exact absurd rfl (h k)
  | _ => rfl

/-- The signing steps after the credentials are resolved throw when the resolved
credentials have no string `secret`. -/
theorem sign_resolved_no_secret (env : Env) (ts : Nat) (w : Val)
    (hsecret : ∀ s : String, w.get "secret" ≠ .str s) :
    (do
      let secret ← w.getE "secret"
      let signature ← createHmacDigest env secret (toString ts)
      pure ({ ts := ts, signature := signature } : SignatureToken)) =
      (.error .TypeError : Except JSError SignatureToken) := by
  have h := createHmacDigest_not_str env (w.get "secret") (toString ts) hsecret
  cases w <;> simp only [Val.getE, bind, Except.bind, h]

/-- Signing with credentials that are kept as the override and have no string
`secret` throws. -/
theorem generateSignature_kept_no_secret (env : Env) (self : Client) (now : Nat) (v : Val)
    (hk : (v.isUndefined || (v.get "length").strictEqNum 0) = false)
    (hsecret : ∀ s : String, v.get "secret" ≠ .str s) :
    _generateSignature env self now v = .error .TypeError := by
  simp only [_generateSignature, hk, Bool.false_eq_true, if_false]
  exact sign_resolved_no_secret env (now / 1000) v hsecret

/-- Signing throws when the stored credentials are the ones resolved and have no
string `secret`. -/
theorem generateSignature_stored_no_secret (env : Env) (self : Client) (now : Nat) (v : Val)
    (hv : self.credentials = v) (hsecret : ∀ s : String, v.get "secret" ≠ .str s) :
    _generateSignature env self now v = .error .TypeError := by
  simp only [_generateSignature, hv, ite_self]
  exact sign_resolved_no_secret env (now / 1000) v hsecret

/-! ## Claims -/

/-- C1: for a credentials dict with a non-empty secret and a clock reading of `t`
milliseconds, passed as the argument or stored in the client, `_generateSignature`
returns `ts = t / 1000` (rounded down) and the base64 HMAC-SHA256 digest, keyed by the
secret, of the decimal string of `ts`; the signature is the same for any client, key
and clock reading with the same secret and the same second. -/
theorem generateSignature_hmac_of_seconds (env : Env) (self : Client) (key secret : String)
    (t : Nat) (_h : secret ≠ "") :
    _generateSignature env self t (credentialsDict key secret) =
      .ok { ts := t / 1000
            signature := env.hmacSha256Base64 secret (toString (t / 1000)) } ∧
    _generateSignature env { self with credentials := credentialsDict key secret } t
        .undefined =
      .ok { ts := t / 1000
            signature := env.hmacSha256Base64 secret (toString (t / 1000)) } ∧
    (∀ (self2 : Client) (key2 : String) (t2 : Nat), t2 / 1000 = t / 1000 →
      _generateSignature env self2 t2 (credentialsDict key2 secret) =
        _generateSignature env self t (credentialsDict key secret)) := by
  refine ⟨generateSignature_dict env self t key secret, ?_, fun self2 key2 t2 h => ?_⟩
  · rw [generateSignature_undefined]
    exact generateSignature_dict env _ t key secret
  · rw [generateSignature_dict, generateSignature_dict, h]

/-- Witness for C1: secret `abc` at clock reading 1000000 ms gives `ts = 1000` and the
digest of the string `1000` keyed by `abc`. -/
theorem generateSignature_hmac_of_seconds_witness :
    ("abc" ≠ "") ∧
    _generateSignature sampleEnv sampleClient 1000000 (credentialsDict "k" "abc") =
      .ok { ts := 1000, signature := sampleEnv.hmacSha256Base64 "abc" "1000" } :=
  ⟨by decide,
   (generateSignature_hmac_of_seconds sampleEnv sampleClient "k" "abc" 1000000 (by decide)).1⟩

/-- C2: an operation calls `rest(options, cb)`, so the callback lands in the
`credentials` parameter and the `cb` parameter of `rest` is `undefined`: with a
callback of at least one declared parameter `add` throws before any request, and no
operation ever hands a callback other than `undefined` to `request`; with a callback
of no declared parameter the request goes out with `undefined` as its callback. -/
theorem operations_pass_callback_as_credentials (env : Env) (self : Client) (now : Nat)
    (a b c : Val) :
    (∀ n : Nat, add (rest env self now) a b (.fn (n + 1)) = .threw .TypeError) ∧
    (∀ cb req f, add (rest env self now) a b cb = .requested req f → f = .undefined) ∧
    (∀ cb req f, remove (rest env self now) a cb = .requested req f → f = .undefined) ∧
    (∀ cb req f, priorityAdd (rest env self now) a b cb = .requested req f → f = .undefined) ∧
    (∀ cb req f, priorityStatus (rest env self now) a cb = .requested req f → f = .undefined) ∧
    (∀ cb req f, check (rest env self now) a b c cb = .requested req f → f = .undefined) ∧
    (∀ cb req f, serp (rest env self now) a b cb = .requested req f → f = .undefined) ∧
    (∀ cb req f, credit (rest env self now) cb = .requested req f → f = .undefined) ∧
    (∀ cb req f, flux (rest env self now) a b cb = .requested req f → f = .undefined) ∧
    (∃ req, add (rest sampleEnv sampleClient 1000000) (.str "foo")
      (.arr [.str "google_en-us"]) (.fn 0) = .requested req .undefined) := by
  refine ⟨fun n => ?_, fun cb req f h => rest_without_callback _ _ _ _ _ _ _ h,
    fun cb req f h => rest_without_callback _ _ _ _ _ _ _ h,
    fun cb req f h => rest_without_callback _ _ _ _ _ _ _ h,
    fun cb req f h => rest_without_callback _ _ _ _ _ _ _ h,
    fun cb req f h => rest_without_callback _ _ _ _ _ _ _ h,
    fun cb req f h => rest_without_callback _ _ _ _ _ _ _ h,
    fun cb req f h => rest_without_callback _ _ _ _ _ _ _ h,
    fun cb req f h => rest_without_callback _ _ _ _ _ _ _ h, ⟨_, rfl⟩⟩
  have h := fn_succ_length_ne_zero n
  have g := generateSignature_fn_succ env self now n
  simp only [add, rest, Val.isUndefined, h, g]
  rfl

/-- C3: `rest` reads `this.url`, which the client does not define, and never reads
`options.path` or `this.apiUrl`: a GET dispatch throws a `TypeError` at the
assignment `curUrl.query = reqData`, and the outcome of any dispatch is the same for
every path and every base URL. -/
theorem rest_url_ignores_apiUrl_and_path (env : Env) (self : Client) (now : Nat)
    (path : Option String) (params : Val) (key secret : String) (cb : Val) :
    rest env self now { method := some "GET", path := path, params := params }
        (credentialsDict key secret) cb = .threw .TypeError ∧
    (∀ (method path2 : Option String) (apiUrl2 : String) (credentials : Val),
      rest env { self with apiUrl := apiUrl2 } now
          { method := method, path := path2, params := params } credentials cb =
        rest env self now { method := method, path := path, params := params }
          credentials cb) := by
  refine ⟨?_, fun method path2 apiUrl2 credentials => rfl⟩
  have g := generateSignature_dict env self now key secret
  simp only [rest, credentialsDict_kept, Bool.false_eq_true, if_false, g, credentialsDict_key,
    normalize, Client.url, Val.setProp, if_true]

/-- C4: the constructor divides 60000, not 1000, by the rate limit: for 30 requests
per second `milliseconds_per_request` is 2000, not 1000 / 30; and the wait handed to
the throttle is read from the receiver of the constructor call (the module's
exports), where it is `undefined`. -/
theorem milliseconds_per_request_divides_60000 (credentials : Val) (timeout : Option ℚ) :
    (SMapi credentials (some 30) timeout).milliseconds_per_request = some 2000 ∧
    (2000 : ℚ) ≠ 1000 / 30 ∧
    restThrottleWait (.obj [("SMapi", .fn 3)]) = .undefined := by
  refine ⟨?_, by norm_num, ?_⟩
  · simp [SMapi, millisecondsPerRequest]; norm_num
  · simp [restThrottleWait, Val.get, List.lookup]

/-- C5: the `rate_limit` property is computed from the `timeout` argument: it is
`timeout` when a timeout is supplied and 30 otherwise, whatever `rate_limit` was
passed (`SMapi(c, 10)` has rate limit 30, `SMapi(c, 10, 7000)` has 7000); the
`timeout` property is `timeout` when supplied and 5000 otherwise. -/
theorem SMapi_rate_limit_reads_timeout (credentials : Val) (rate_limit timeout : Option ℚ) :
    (SMapi credentials rate_limit timeout).rate_limit = timeout.getD 30 ∧
    (SMapi credentials rate_limit timeout).timeout = timeout.getD 5000 ∧
    (SMapi credentials (some 10) none).rate_limit = 30 ∧
    (SMapi credentials (some 10) (some 7000)).rate_limit = 7000 := by
  refine ⟨?_, ?_, rfl, rfl⟩ <;> cases timeout <;> rfl

/-- C6, counterexample: with the empty string as secret, signing returns a token
instead of failing. -/
theorem empty_secret_returns_token :
    _generateSignature sampleEnv sampleClient 1000000 (credentialsDict "k" "") =
      .ok { ts := 1000, signature := sampleEnv.hmacSha256Base64 "" "1000" } :=
  rfl

/-- C6, amended: for every credentials value `v` whose `secret` property is not a
string (in particular absent), signing throws a `TypeError` and `rest` throws it
before any request, both when `v` is passed as an override that is kept (defined and
not of length 0) and when `v` is stored in the client and no override is passed; for
credentials whose secret is the empty string, signing returns the token keyed by the
empty string. -/
theorem signing_with_missing_or_empty_secret (env : Env) (self : Client) (now : Nat)
    (v : Val) (key : String) (options : RequestSpec) (cb : Val)
    (hsecret : ∀ s : String, v.get "secret" ≠ .str s) :
    ((v.isUndefined || (v.get "length").strictEqNum 0) = false →
      _generateSignature env self now v = .error .TypeError ∧
      rest env self now options v cb = .threw .TypeError) ∧
    _generateSignature env { self with credentials := v } now .undefined =
      .error .TypeError ∧
    rest env { self with credentials := v } now options .undefined cb =
      .threw .TypeError ∧
    _generateSignature env self now (credentialsDict key "") =
      .ok { ts := now / 1000
            signature := env.hmacSha256Base64 "" (toString (now / 1000)) } := by
  have g1 : ∀ c : Client, (v.isUndefined || (v.get "length").strictEqNum 0) = false →
      _generateSignature env c now v = .error .TypeError := fun c hk =>
    generateSignature_kept_no_secret env c now v hk hsecret
  have g2 : _generateSignature env { self with credentials := v } now v =
      .error .TypeError := generateSignature_stored_no_secret env _ now v rfl hsecret
  refine ⟨fun hk => ⟨g1 self hk, ?_⟩, ?_, ?_, generateSignature_dict env self now key ""⟩
  · simp only [rest, hk, Bool.false_eq_true, if_false, g1 self hk]
  · rw [generateSignature_undefined]
    exact g2
  · simp only [rest, Val.isUndefined, Bool.true_or, if_true, g2]

/-- Witness for C6: the credentials `{key: 'k'}` have no `secret`; signing and
dispatching with them as the override throw a `TypeError`. -/
theorem signing_with_missing_or_empty_secret_witness :
    (∀ s : String, (credentialsNoSecret "k").get "secret" ≠ .str s) ∧
    _generateSignature sampleEnv sampleClient 1000000 (credentialsNoSecret "k") =
      .error .TypeError ∧
    rest sampleEnv sampleClient 1000000
        { method := none, path := some "/users/credit", params := .undefined }
        (credentialsNoSecret "k") (.fn 2) = .threw .TypeError :=
  ⟨credentialsNoSecret_secret "k",
   (signing_with_missing_or_empty_secret sampleEnv sampleClient 1000000
      (credentialsNoSecret "k") "k"
      { method := none, path := some "/users/credit", params := .undefined } (.fn 2)
      (credentialsNoSecret_secret "k")).1 (credentialsNoSecret_kept "k")⟩

/-- C7: an empty credentials object `{}` passed as the override is kept (its `length`
is `undefined`, not 0), so signing and dispatching throw a `TypeError` whatever
credentials the client stores; the stored credentials are used when the override is
`undefined`, the empty array or the empty string. -/
theorem empty_object_override_is_kept (env : Env) (self : Client) (now : Nat)
    (options : RequestSpec) (cb : Val) :
    _generateSignature env self now (.obj []) = .error .TypeError ∧
    rest env self now options (.obj []) cb = .threw .TypeError ∧
    _generateSignature env self now .undefined =
      _generateSignature env self now self.credentials ∧
    _generateSignature env self now (.arr []) =
      _generateSignature env self now self.credentials ∧
    _generateSignature env self now (.str "") =
      _generateSignature env self now self.credentials ∧
    _generateSignature sampleEnv sampleClient 1000000 .undefined =
      .ok { ts := 1000, signature := sampleEnv.hmacSha256Base64 "abc" "1000" } ∧
    _generateSignature sampleEnv sampleClient 1000000 (.obj []) = .error .TypeError := by
  have g : _generateSignature env self now (.obj []) = .error .TypeError := by
    simp [_generateSignature, Val.isUndefined, Val.get, Val.strictEqNum, Val.getE,
      createHmacDigest, List.lookup]
    rfl
  have k : ((Val.obj []).isUndefined || ((Val.obj []).get "length").strictEqNum 0) = false := by
    simp [Val.isUndefined, Val.get, Val.strictEqNum, List.lookup]
  have e : ∀ v : Val, (v.isUndefined || (v.get "length").strictEqNum 0) = true →
      _generateSignature env self now v = _generateSignature env self now self.credentials := by
    intro v hv
    simp only [_generateSignature, hv, if_true]
    split <;> rfl
  refine ⟨g, ?_, generateSignature_undefined env self now, e _ ?_, e _ ?_, rfl, rfl⟩
  · simp only [rest, k, Bool.false_eq_true, if_false, g]
  · simp [Val.isUndefined, Val.get, Val.strictEqNum]
  · simp [Val.isUndefined, Val.get, Val.strictEqNum]

/-- C8: with the method omitted `rest` takes the POST branch, whose URL is
`url.format(this.url)` with `this.url` undefined: the dispatch throws whatever
`url.format(undefined)` throws, and only where that call returns is a POST with the
JSON payload (params `{}` when omitted) handed to `request`; where `url.format`
rejects `undefined`, no request is made. -/
theorem rest_omitted_method_stops_at_url_format (env : Env) (self : Client) (now : Nat)
    (path : Option String) (params : Val) (key secret : String) (cb : Val) :
    rest env self now { method := none, path := path, params := params }
        (credentialsDict key secret) cb =
      (match env.urlFormat .undefined with
       | .error e => .threw e
       | .ok u =>
         .requested
           { url := u
             method := "POST"
             headers := [("User-Agent", self.userAgent ++ " " ++ self.VERSION)]
             json := some
               { params := if params.isUndefined then .obj [] else params
                 key := .str key
                 auth := env.hmacSha256Base64 secret (toString (now / 1000))
                 ts := now / 1000 }
             timeout := self.timeout } cb) ∧
    rest strictEnv sampleClient 1000000
        { method := none, path := some "/users/credit", params := .undefined }
        (credentialsDict "k" "abc") (.fn 2) = .threw .TypeError := by
  have g := generateSignature_dict env self now key secret
  refine ⟨?_, rfl⟩
  simp only [rest, credentialsDict_kept, Bool.false_eq_true, if_false, g, credentialsDict_key,
    normalize, Client.url]
  have hne : ¬ ("POST" = "GET") := by decide
  simp only [hne, if_false]
  cases params <;> rfl

/-- C9: whatever the receiver's `rest`, `add` and `priorityAdd` hand it params whose
`engines` is `[engines]` when `engines` is not an array and `engines` itself when it
is one. -/
theorem engines_normalized_to_list {α : Type} (r : RequestSpec → Val → Val → α)
    (keyword engines cb : Val) (q : ℚ) (s : String) (xs : List Val)
    (props : List (String × Val)) (n : Nat) :
    add r keyword engines cb =
      r { method := none, path := some "/keywords/add"
          params := .obj [("keyword", keyword),
            ("engines", if engines.isArray then engines else .arr [engines])] }
        cb .undefined ∧
    priorityAdd r keyword engines cb =
      r { method := none, path := some "/priority/add"
          params := .obj [("keyword", keyword),
            ("engines", if engines.isArray then engines else .arr [engines])] }
        cb .undefined ∧
    (add recordCall keyword (.arr xs) cb).1.params.get "engines" = .arr xs ∧
    (priorityAdd recordCall keyword (.arr xs) cb).1.params.get "engines" = .arr xs ∧
    (add recordCall keyword .undefined cb).1.params.get "engines" = .arr [.undefined] ∧
    (add recordCall keyword (.num q) cb).1.params.get "engines" = .arr [.num q] ∧
    (add recordCall keyword (.str s) cb).1.params.get "engines" = .arr [.str s] ∧
    (add recordCall keyword (.obj props) cb).1.params.get "engines" =
      .arr [.obj props] ∧
    (add recordCall keyword (.fn n) cb).1.params.get "engines" = .arr [.fn n] ∧
    (priorityAdd recordCall keyword .undefined cb).1.params.get "engines" =
      .arr [.undefined] ∧
    (priorityAdd recordCall keyword (.num q) cb).1.params.get "engines" = .arr [.num q] ∧
    (priorityAdd recordCall keyword (.str s) cb).1.params.get "engines" = .arr [.str s] ∧
    (priorityAdd recordCall keyword (.obj props) cb).1.params.get "engines" =
      .arr [.obj props] ∧
    (priorityAdd recordCall keyword (.fn n) cb).1.params.get "engines" = .arr [.fn n] := by
  refine ⟨?_, ?_, rfl, rfl, rfl, rfl, rfl, rfl, rfl, rfl, rfl, rfl, rfl, rfl⟩ <;>
    cases engines <;> rfl

/-- C10: whatever the receiver's `rest`, each operation hands it the request of its
row of the endpoint table, with the callback as second argument; only `check` sets
a method (`GET`); `check` sets `limit = 10` and `flux` sets `type = "daily"` when the
argument is `undefined`, and every other value is passed through. -/
theorem operations_follow_endpoint_table {α : Type} (r : RequestSpec → Val → Val → α)
    (a b c cb : Val) :
    add r a b cb =
      r { method := none, path := some "/keywords/add"
          params := .obj [("keyword", a),
            ("engines", if b.isArray then b else .arr [b])] } cb .undefined ∧
    remove r a cb =
      r { method := none, path := some "/keywords/delete"
          params := .obj [("keyword_id", a)] } cb .undefined ∧
    priorityAdd r a b cb =
      r { method := none, path := some "/priority/add"
          params := .obj [("keyword", a),
            ("engines", if b.isArray then b else .arr [b])] } cb .undefined ∧
    priorityStatus r a cb =
      r { method := none, path := some "/priority/status"
          params := .obj [("priority_id", a)] } cb .undefined ∧
    check r a b c cb =
      r { method := some "GET", path := some "/keywords/check"
          params := .obj [("keyword_id", a), ("engine", b),
            ("limit", if c.isUndefined then .num 10 else c)] } cb .undefined ∧
    serp r a b cb =
      r { method := none, path := some "/keywords/serp"
          params := .obj [("check_id", a), ("domain", b)] } cb .undefined ∧
    credit r cb =
      r { method := none, path := some "/users/credit", params := .undefined }
        cb .undefined ∧
    flux r a b cb =
      r { method := none, path := some "/flux/trend"
          params := .obj [("engine_code", a),
            ("type", if b.isUndefined then .str "daily" else b)] } cb .undefined ∧
    check r a b .undefined cb =
      r { method := some "GET", path := some "/keywords/check"
          params := .obj [("keyword_id", a), ("engine", b), ("limit", .num 10)] }
        cb .undefined ∧
    flux r a .undefined cb =
      r { method := none, path := some "/flux/trend"
          params := .obj [("engine_code", a), ("type", .str "daily")] } cb .undefined ∧
    (c.isUndefined = false →
      (check recordCall a b c cb).1.params.get "limit" = c ∧
      (flux recordCall a c cb).1.params.get "type" = c) := by
  refine ⟨?_, rfl, ?_, rfl, ?_, rfl, rfl, ?_, rfl, rfl, ?_⟩
  · cases b <;> rfl
  · cases b <;> rfl
  · cases c <;> rfl
  · cases b <;> rfl
  · intro hc
    cases c
    · cases hc
    all_goals exact ⟨rfl, rfl⟩

end Smapi
